import Mathlib

/-
Shallow embedding of the event-dispatch and shared-state core of the
hifumi chat bot (Rust sources: src/handlers/messages.rs, src/helpers/utils.rs,
src/helpers/types.rs, src/main.rs, src/config.rs).

String operations are modelled on explicit character lists so that every
definition is executable inside the kernel.  External effects (the MongoDB
collection, the Discord gateway sends, the random number generator, the
DEV_MODE environment flag) are modelled by explicit parameters; fallible
calls return `Except`.
-/

deriving instance DecidableEq for Except

namespace Hifumi

/-- Model of Rust `str::to_lowercase`: lower-case character by character.
Character-wise lowering is exact for the ASCII prefixes and command names
this bot deals in. -/
def strLower (s : String) : String :=
  String.mk (s.data.map Char.toLower)

/-- Accumulator worker for `splitWhitespace`: walks the character list,
collecting the current token in reverse in `acc`, emitting it whenever a
whitespace character or the end of input is reached.  Empty pieces are
never emitted, matching Rust `str::split_whitespace`. -/
def splitWsAux : List Char → List Char → List String
  | [], acc => if acc = [] then [] else [String.mk acc.reverse]
  | c :: rest, acc =>
      if c.isWhitespace then
        (if acc = [] then [] else [String.mk acc.reverse]) ++ splitWsAux rest []
      else
        splitWsAux rest (c :: acc)

/-- Model of Rust `str::split_whitespace` (messages.rs line 19): the list of
maximal non-whitespace runs of the string, in order. -/
def splitWhitespace (s : String) : List String :=
  splitWsAux s.data []

/-- Model of Rust `str::starts_with` on strings. -/
def strStartsWith (s p : String) : Bool :=
  p.data.isPrefixOf s.data

/-- Fuel-indexed worker for `strReplace`.  Scans the haystack left to right;
whenever the (non-empty) pattern is a prefix of the remaining input the
pattern is consumed and the replacement emitted, exactly like Rust
`str::replace` (non-overlapping, leftmost-first, replaces every
occurrence).  The fuel is the haystack length, which bounds the number of
scan steps; an empty pattern is treated as matching nothing (the code only
ever calls this with a non-empty resolved prefix). -/
def replaceAux (pat rep : List Char) : Nat → List Char → List Char
  | _, [] => []
  | 0, l => l
  | fuel + 1, c :: rest =>
      if pat ≠ [] ∧ pat.isPrefixOf (c :: rest) then
        rep ++ replaceAux pat rep fuel ((c :: rest).drop pat.length)
      else
        c :: replaceAux pat rep fuel rest

/-- Model of Rust `str::replace` (messages.rs line 73): replace every
occurrence of `pat` in `s` by `rep`. -/
def strReplace (s pat rep : String) : String :=
  String.mk (replaceAux pat.data rep.data s.data.length s.data)

/-- Model of `content[0].strip_prefix('$').unwrap_or_default()`
(messages.rs line 27): the first token without a leading `$`, or the empty
string when the token does not start with `$`. -/
def stripDollar (s : String) : String :=
  match s.data with
  | '$' :: rest => String.mk rest
  | _ => ""

/-- The in-memory prefix cache `HashMap<String, String>` (guild id to
prefix), modelled as an association list with insert-overwrite
semantics. -/
abbrev PrefixMap := List (String × String)

/-- Model of `HashMap::get`: the value stored under `k`, if any. -/
def mapFind (m : PrefixMap) (k : String) : Option String :=
  match m.find? (fun p => p.1 == k) with
  | some p => some p.2
  | none => none

/-- Model of `HashMap::contains_key`. -/
def mapContains (m : PrefixMap) (k : String) : Bool :=
  m.any (fun p => p.1 == k)

/-- Model of `HashMap::insert`: the new binding shadows (replaces) any
previous binding of the same key. -/
def mapInsert (m : PrefixMap) (k v : String) : PrefixMap :=
  (k, v) :: m.filter (fun p => !(p.1 == k))

/-- A document of the `prefixes` MongoDB collection (types.rs `PrefixDoc`).
The source field `prefix` is a Lean keyword and is embedded as `pfxValue`;
the randomly generated `_id : ObjectId` carries no information used by the
core and is not modelled. -/
structure PrefixDoc where
  serverId : String
  pfxValue : String
deriving DecidableEq, Repr

/-- A document of the `statuses` MongoDB collection (types.rs `StatusDoc`).
The source field `r#type` is embedded as `rtype`; `_id` is not modelled. -/
structure StatusDoc where
  rtype : String
  status : String
deriving DecidableEq, Repr

/-- The fields of an inbound Discord message the core inspects:
whether the author is a bot, the raw content, the optional guild id
(already rendered to a string, as the code does with `to_string`), and the
channel id. -/
structure Message where
  authorBot : Bool
  content : String
  guildId : Option String
  channelId : Nat
deriving DecidableEq, Repr

/-- The external-effect oracles one `handle_message` run consults:
`indev` is the `is_indev()` environment flag, `dbOk` tells whether
`insert_one` into the prefixes collection would succeed, `notifyOk`
whether the first-contact notification send would succeed, and `execRes`
is the result a matched command implementation (`say "Pong!"` /
`user_avatar`) would return. -/
structure Env where
  indev : Bool
  dbOk : Bool
  notifyOk : Bool
  execRes : Except String Unit
deriving DecidableEq, Repr

/-- The mutable state `handle_message` touches: the in-memory prefix cache
(`handler.prefixes`) and the persistent `prefixes` collection. -/
structure BotState where
  prefixes : PrefixMap
  db : List PrefixDoc
deriving DecidableEq, Repr

/-- Result of one `register_prefix` run: its returned `Result` together
with the state of the collection and of the in-memory map afterwards. -/
structure RegOutcome where
  res : Except String String
  db : List PrefixDoc
  prefixes : PrefixMap
deriving DecidableEq, Repr

/-- Embedding of `register_prefix` (utils.rs lines 135 to 154): build a
`PrefixDoc` with the default prefix `h!`, insert it into the collection
(the `?` operator propagates a failure before anything else happens), then
insert the same binding into the in-memory map and return the server
id. -/
def register_prefix (guildId : String) (dbOk : Bool) (db : List PrefixDoc)
    (m : PrefixMap) : RegOutcome :=
  let doc : PrefixDoc := { serverId := guildId, pfxValue := "h!" }
  if dbOk then
    { res := Except.ok doc.serverId
      db := db ++ [doc]
      prefixes := mapInsert m doc.serverId doc.pfxValue }
  else
    { res := Except.error "insert_one failed", db := db, prefixes := m }

/-- Embedding of the prefix-resolution expression (messages.rs lines 57 to
70): in development mode the prefix is `h?`; otherwise a guild message
resolves to the cached value (default `h!` when absent) and a direct
message to `h!`; the whole branch result is lower-cased. -/
def resolvePfx (indev : Bool) (m : PrefixMap) (guildId : Option String) : String :=
  strLower
    (if indev then "h?"
     else
       match guildId with
       | some id => (mapFind m id).getD "h!"
       | none => "h!")

/-- Embedding of `handle_command` (messages.rs lines 91 to 99): an
exact-match table with entries `ping` and `pfp`; the pair returned is the
propagated result of the command body and the name of the implementation
that ran (`none` when the command name matched no entry, which is a
silent no-op). -/
def handle_command (env : Env) (command : String) : Except String Unit × Option String :=
  if command = "ping" then (env.execRes, some "ping")
  else if command = "pfp" then (env.execRes, some "pfp")
  else (Except.ok (), none)

/-- Observable outcome of one `handle_message` run: the returned `Result`,
the two pieces of state afterwards, how many `insert_one` registration
attempts were made, whether `handle_command` was reached (`dispatched`),
which command implementation ran, the computed `command` string, the
reaction-command and sub-command tokens, and the resolved prefix
(`none` for the fields of a phase the early returns skipped). -/
structure HandleResult where
  res : Except String Unit
  prefixes : PrefixMap
  db : List PrefixDoc
  regAttempts : Nat
  dispatched : Bool
  invoked : Option String
  cmdName : Option String
  reactCmd : Option String
  subCmd : Option String
  resolved : Option String
deriving DecidableEq, Repr

/-- The no-op result of the two early returns of `handle_message`
(bot author, empty token list): `Ok(())` with nothing touched. -/
def noOpResult (st : BotState) : HandleResult :=
  { res := Except.ok (), prefixes := st.prefixes, db := st.db
    regAttempts := 0, dispatched := false, invoked := none
    cmdName := none, reactCmd := none, subCmd := none, resolved := none }

/-- Embedding of messages.rs lines 57 to 86, the phase after the
registration block: resolve the prefix from the (possibly updated) state,
and when the lower-cased full content starts with it, build `command` by
replacing every occurrence of the prefix in the first token and run
`handle_command`, propagating its result. -/
def dispatchPhase (env : Env) (st : BotState) (msg : Message)
    (content : List String) (rc sc : String) (reg : Nat) : HandleResult :=
  let pfx := resolvePfx env.indev st.prefixes msg.guildId
  if strStartsWith (strLower msg.content) pfx then
    let command := strReplace (content.headD "") pfx ""
    let hc := handle_command env command
    { res := hc.1, prefixes := st.prefixes, db := st.db
      regAttempts := reg, dispatched := true, invoked := hc.2
      cmdName := some command, reactCmd := some rc, subCmd := some sc
      resolved := some pfx }
  else
    { res := Except.ok (), prefixes := st.prefixes, db := st.db
      regAttempts := reg, dispatched := false, invoked := none
      cmdName := none, reactCmd := some rc, subCmd := some sc
      resolved := some pfx }

/-- Embedding of `handle_message` (messages.rs lines 13 to 89).  Bot
authors and token-less contents return `Ok(())` untouched; the first token
yields the reaction-command and the second the sub-command; a guild
message whose guild is not yet cached runs ` register_prefix` — on its
success the notification send runs and a send failure is returned as
`Err("Failed to send message")` before any dispatch, while a registration
failure is discarded by the `if let Ok` and handling continues — and
finally the prefix is resolved and the message dispatched. -/
def handle_message (env : Env) (st : BotState) (msg : Message) : HandleResult :=
  if msg.authorBot then noOpResult st
  else
    let content := (splitWhitespace msg.content).map strLower
    if content = [] then noOpResult st
    else
      let rc := stripDollar (content.headD "")
      let sc := content.getD 1 ""
      match msg.guildId with
      | some g =>
          if mapContains st.prefixes g then
            dispatchPhase env st msg content rc sc 0
          else
            let out := register_prefix g env.dbOk st.db st.prefixes
            match out.res with
            | Except.ok _ =>
                if env.notifyOk then
                  dispatchPhase env { prefixes := out.prefixes, db := out.db }
                    msg content rc sc 1
                else
                  { res := Except.error "Failed to send message"
                    prefixes := out.prefixes, db := out.db
                    regAttempts := 1, dispatched := false, invoked := none
                    cmdName := none, reactCmd := some rc, subCmd := some sc
                    resolved := none }
            | Except.error _ =>
                dispatchPhase env { prefixes := out.prefixes, db := out.db }
                  msg content rc sc 1
      | none => dispatchPhase env st msg content rc sc 0

/-- The four Discord presence activities the code can build
(serenity `Activity`, as used by `get_activity`). -/
inductive Activity where
  | playing (msg : String)
  | watching (msg : String)
  | listening (msg : String)
  | competing (msg : String)
deriving DecidableEq, Repr

/-- Embedding of `get_activity` (utils.rs lines 252 to 259): map the
lower-cased status type to an activity, falling back to `playing` for
anything unrecognized, so the mapping is total. -/
def get_activity (ty : String) (statusMsg : String) : Activity :=
  if strLower ty = "listening" then Activity.listening statusMsg
  else if strLower ty = "watching" then Activity.watching statusMsg
  else if strLower ty = "competing" then Activity.competing statusMsg
  else Activity.playing statusMsg

/-- Embedding of `random_element_vec` (utils.rs lines 220 to 223), i.e.
`slice::choose`: `none` on an empty slice, otherwise the element at a
uniformly random index; the random draw is modelled by the extra argument
`k`, reduced modulo the length. -/
def random_element_vec {α : Type} (l : List α) (k : Nat) : Option α :=
  l.get? (k % l.length)

/-- Embedding of `random_int_from_range` (utils.rs lines 186 to 188),
i.e. `gen_range(lo..=hi)`: a value in `[lo, hi]` inclusive, the draw
modelled by `r`. -/
def random_int_from_range (lo hi r : Nat) : Nat :=
  lo + r % (hi - lo + 1)

/-- Observable event of one status-rotator iteration: a presence update,
or the fatal `No statuses found in database` error that ends the loop. -/
inductive LoopEvent where
  | setActivity (a : Activity)
  | fatalNoStatuses
deriving DecidableEq, Repr

/-- Embedding of `start_status_loop` (utils.rs lines 159 to 173) as the
trace of events of its first `fuel` iterations, the random draws supplied
by `rng`.  Each iteration samples the snapshot: on `some` it sets the
corresponding activity and sleeps, on `none` it logs the fatal error and
returns, so the trace ends there with no further iteration.  The statuses
vector is only ever written at startup, so the loop sees a fixed
snapshot. -/
def start_status_loop (statuses : List StatusDoc) (rng : Nat → Nat) :
    Nat → List LoopEvent
  | 0 => []
  | fuel + 1 =>
      match random_element_vec statuses (rng fuel) with
      | some d =>
          LoopEvent.setActivity (get_activity d.rtype d.status) ::
            start_status_loop statuses rng fuel
      | none => [LoopEvent.fatalNoStatuses]

/-- The configuration fields the error escalator uses (config.rs):
`dev_channels` and `log_channel`. -/
structure Config where
  devChannels : List Nat
  logChannel : Nat
deriving DecidableEq, Repr

/-- Observable actions of the top-level error path (main.rs lines 32 to
46): the escalator's report send to a channel, the console log emitted
when that send fails, the best-effort reply to the user, and the console
log emitted when the reply fails. -/
inductive TopAction where
  | postReport (channel : Nat)
  | logErrorLogFailure
  | replyUser (channel : Nat)
  | logReplyFailure
deriving DecidableEq, Repr

/-- Destination channel of the escalation report (utils.rs lines 74 to
82): the originating channel when it is one of the configured development
channels, the fixed operator log channel otherwise. -/
def errorDest (cfg : Config) (channelId : Nat) : Nat :=
  if cfg.devChannels.contains channelId then channelId else cfg.logChannel

/-- Embedding of the posting tail of `error_log` (utils.rs lines 74 to
86): one `say` of the formatted report to the destination channel, whose
failure (modelled by `postOk = false`) is propagated by `?` as the
function's result.  The console-logging and report-formatting lines above
it are effect-free for this model. -/
def error_log (cfg : Config) (channelId : Nat) (postOk : Bool) :
    Except String Unit × List TopAction :=
  ((if postOk then Except.ok () else Except.error "say failed"),
   [TopAction.postReport (errorDest cfg channelId)])

/-- Embedding of `EventHandler::message` (main.rs lines 32 to 46): run
`handle_message`; on `Ok` do nothing; on `Err` run `error_log` — a
failure of which is only logged, never escalated again — and then attempt
a best-effort reply with the error text, whose failure is also only
logged. -/
def onMessageEvent (cfg : Config) (env : Env) (st : BotState) (msg : Message)
    (postOk replyOk : Bool) : List TopAction :=
  match (handle_message env st msg).res with
  | Except.ok _ => []
  | Except.error _ =>
      let el := error_log cfg msg.channelId postOk
      el.2 ++
        (match el.1 with
         | Except.ok _ => []
         | Except.error _ => [TopAction.logErrorLogFailure]) ++
        TopAction.replyUser msg.channelId ::
          (if replyOk then [] else [TopAction.logReplyFailure])

/-- Recognizer for the escalation-report send among the top-level
actions. -/
def isPostReport : TopAction → Bool
  | TopAction.postReport _ => true
  | _ => false

/-- The two steps of one first-contact registration, as scheduled by the
concurrency model: the awaited `insert_one` into the collection, and the
in-memory map insertion performed atomically under the write lock. -/
inductive RegOp where
  | dbInsert
  | mapWrite
deriving DecidableEq, Repr

/-- Effect of one registration step on the in-memory map for guild `g`:
the database insert does not touch the map, the map write inserts the
default binding `g to h!` (the only value ` register_prefix` ever
writes). -/
def applyRegOp (g : String) (m : PrefixMap) : RegOp → PrefixMap
  | RegOp.dbInsert => m
  | RegOp.mapWrite => mapInsert m g "h!"

/-- The in-memory map after executing a schedule of registration steps in
order. -/
def runRegOps (g : String) (m : PrefixMap) (ops : List RegOp) : PrefixMap :=
  ops.foldl (applyRegOp g) m

/-- The step sequence of one successful ` register_prefix` run: the
database insert, then the map write. -/
def regSeq : List RegOp := [RegOp.dbInsert, RegOp.mapWrite]

/-- Interleavings of two step sequences: `Interleaving xs ys zs` holds
when `zs` merges `xs` and `ys` preserving the internal order of each.
This is the set of schedules two concurrent tasks can produce when each
step is atomic. -/
inductive Interleaving : List RegOp → List RegOp → List RegOp → Prop where
  | nil : Interleaving [] [] []
  | left : ∀ {x : RegOp} {xs ys zs : List RegOp},
      Interleaving xs ys zs → Interleaving (x :: xs) ys (x :: zs)
  | right : ∀ {y : RegOp} {xs ys zs : List RegOp},
      Interleaving xs ys zs → Interleaving xs (y :: ys) (y :: zs)

/-- A definition following the SPEC's words, for comparison with the
code's `strReplace`-based command extraction: strip the resolved prefix
from the front of the first token (and only from the front). -/
def specStripLeading (tok pfxStr : String) : String :=
  if strStartsWith tok pfxStr then String.mk (tok.data.drop pfxStr.data.length)
  else tok

end Hifumi

namespace Hifumi

example : strLower "A Bc!" = "a bc!" := by decide
example : splitWhitespace "  h!Ping  <@123> " = ["h!Ping", "<@123>"] := by decide
example : strStartsWith "h!ping" "h!" = true := by decide
example : strReplace "h!ph!ing" "h!" "" = "ping" := by decide
example : stripDollar "$abc" = "abc" := by decide
example : stripDollar "abc" = "" := by decide
example : mapFind (mapInsert [] "1" "h!") "1" = some "h!" := by decide

example :
    (handle_message ⟨false, true, true, Except.ok ()⟩ ⟨[], []⟩
      ⟨false, "h!ping", none, 0⟩).invoked = some "ping" := by decide

example :
    (handle_message ⟨false, true, true, Except.ok ()⟩ ⟨[], []⟩
      ⟨false, "h!ph!ing", none, 0⟩).cmdName = some "ping" := by decide

example :
    (handle_message ⟨true, true, true, Except.ok ()⟩ ⟨[("1", "X!")], []⟩
      ⟨false, "hey", some "1", 0⟩).resolved = some "h?" := by decide

example :
    (handle_message ⟨false, true, false, Except.ok ()⟩ ⟨[], []⟩
      ⟨false, "hello", some "1", 5⟩).res = Except.error "Failed to send message" := by
  decide

example :
    (handle_message ⟨false, false, true, Except.ok ()⟩ ⟨[], []⟩
      ⟨false, "hello", some "1", 5⟩).res = Except.ok () := by decide

/-- Looking up a key right after inserting it yields the inserted value. -/
theorem mapFind_mapInsert_self (m : PrefixMap) (k v : String) :
    mapFind (mapInsert m k v) k = some v := by
  simp [mapFind, mapInsert, List.find?]

/-- A key reported absent by `mapContains` has no binding. -/
theorem mapFind_eq_none_of_contains_false (m : PrefixMap) (k : String)
    (h : mapContains m k = false) : mapFind m k = none := by
  induction m with
  | nil => rfl
  | cons p rest ih =>
      simp only [mapContains, List.any_cons, Bool.or_eq_false_iff] at h
      simp only [mapFind, List.find?, h.1]
      exact ih h.2

/-- A key with a binding is reported present by `mapContains`. -/
theorem mapContains_eq_true_of_find (m : PrefixMap) (k v : String)
    (h : mapFind m k = some v) : mapContains m k = true := by
  induction m with
  | nil => simp [mapFind] at h
  | cons p rest ih =>
      simp only [mapFind, List.find?] at h
      simp only [mapContains, List.any_cons, Bool.or_eq_true]
      cases hpk : (p.1 == k) with
      | true => exact Or.inl rfl
      | false =>
          rw [hpk] at h
          exact Or.inr (ih h)

/-- Filtering out a key commutes with inserting that key: the inserted
binding is removed and the old removals stay removed. -/
theorem filter_ne_mapInsert (m : PrefixMap) (k v : String) :
    (mapInsert m k v).filter (fun p => !(p.1 == k)) =
      m.filter (fun p => !(p.1 == k)) := by
  simp [mapInsert, List.filter_filter]

/-- Inserting the same binding twice is the same as inserting it once. -/
theorem mapInsert_idem (m : PrefixMap) (k v : String) :
    mapInsert (mapInsert m k v) k v = mapInsert m k v := by
  show (k, v) :: (mapInsert m k v).filter (fun p => !(p.1 == k)) = mapInsert m k v
  rw [filter_ne_mapInsert]
  rfl

/-- Registering a fresh guild does not change what the resolver returns
for it: the registered value is the default the resolver would have used
anyway. -/
theorem resolvePfx_after_register (indev : Bool) (m : PrefixMap) (g : String)
    (h : mapContains m g = false) :
    resolvePfx indev (mapInsert m g "h!") (some g) = resolvePfx indev m (some g) := by
  cases indev with
  | true => rfl
  | false =>
      simp [resolvePfx, mapFind_mapInsert_self,
        mapFind_eq_none_of_contains_false m g h]

/-- When every matched command body succeeds, `handle_command` always
returns `Ok(())`, whichever branch is taken. -/
theorem handle_command_ok (env : Env) (c : String)
    (h : env.execRes = Except.ok ()) : (handle_command env c).1 = Except.ok () := by
  unfold handle_command
  split
  · exact h
  · split
    · exact h
    · rfl

/-- A schedule with no map write leaves the map untouched. -/
theorem runRegOps_no_write (g : String) (m : PrefixMap) (ops : List RegOp)
    (h : RegOp.mapWrite ∉ ops) : runRegOps g m ops = m := by
  induction ops generalizing m with
  | nil => rfl
  | cons op rest ih =>
      cases op with
      | dbInsert =>
          simp only [List.mem_cons, not_or] at h
          exact ih m h.2
      | mapWrite => exact absurd (List.mem_cons_self _ _) h

/-- A schedule containing at least one map write for guild `g` ends with
the map holding exactly the default binding for `g`, however the steps
were ordered: all map writes write the same value and the write is
idempotent. -/
theorem runRegOps_with_write (g : String) (m : PrefixMap) (ops : List RegOp)
    (h : RegOp.mapWrite ∈ ops) : runRegOps g m ops = mapInsert m g "h!" := by
  induction ops generalizing m with
  | nil => cases h
  | cons op rest ih =>
      cases op with
      | dbInsert =>
          have hrest : RegOp.mapWrite ∈ rest := by
            cases List.mem_cons.mp h with
            | inl hh => cases hh
            | inr hh => exact hh
          exact ih m hrest
      | mapWrite =>
          show runRegOps g (mapInsert m g "h!") rest = mapInsert m g "h!"
          by_cases hrest : RegOp.mapWrite ∈ rest
          · rw [ih (mapInsert m g "h!") hrest, mapInsert_idem]
          · exact runRegOps_no_write g _ rest hrest

/-- Membership in an interleaving is membership in one of the two merged
sequences. -/
theorem Interleaving.mem_iff {xs ys zs : List RegOp} (h : Interleaving xs ys zs)
    (a : RegOp) : a ∈ zs ↔ a ∈ xs ∨ a ∈ ys := by
  induction h with
  | nil => simp
  | left _ ih => simp [List.mem_cons, ih, or_assoc]
  | right _ ih =>
      simp only [List.mem_cons, ih]
      tauto

/-- The inserted binding is the only binding of its key in the updated
map. -/
theorem filter_eq_mapInsert (m : PrefixMap) (k v : String) :
    (mapInsert m k v).filter (fun p => p.1 == k) = [(k, v)] := by
  simp only [mapInsert, List.filter]
  rw [show ((k, v).1 == k) = true by simp]
  simp [List.filter_filter]

/-- The dispatch phase propagates `Ok(())` whenever every matched command
body succeeds, whether or not the message was an invocation. -/
theorem dispatchPhase_res_ok (env : Env) (st : BotState) (msg : Message)
    (content : List String) (rc sc : String) (reg : Nat)
    (hexec : env.execRes = Except.ok ()) :
    (dispatchPhase env st msg content rc sc reg).res = Except.ok () := by
  unfold dispatchPhase
  dsimp only
  split
  · exact handle_command_ok env _ hexec
  · rfl

/-- The dispatch phase always records the resolved prefix. -/
theorem dispatchPhase_resolved (env : Env) (st : BotState) (msg : Message)
    (content : List String) (rc sc : String) (reg : Nat) :
    (dispatchPhase env st msg content rc sc reg).resolved =
      some (resolvePfx env.indev st.prefixes msg.guildId) := by
  unfold dispatchPhase
  dsimp only
  split <;> rfl

/-- The dispatch phase dispatches exactly when the lower-cased content
starts with the resolved prefix. -/
theorem dispatchPhase_dispatched (env : Env) (st : BotState) (msg : Message)
    (content : List String) (rc sc : String) (reg : Nat) :
    (dispatchPhase env st msg content rc sc reg).dispatched =
      strStartsWith (strLower msg.content)
        (resolvePfx env.indev st.prefixes msg.guildId) := by
  unfold dispatchPhase
  dsimp only
  split <;> simp_all

/-- Without a prefix match the dispatch phase invokes nothing. -/
theorem dispatchPhase_invoked_of_no_match (env : Env) (st : BotState) (msg : Message)
    (content : List String) (rc sc : String) (reg : Nat)
    (h : strStartsWith (strLower msg.content)
      (resolvePfx env.indev st.prefixes msg.guildId) = false) :
    (dispatchPhase env st msg content rc sc reg).invoked = none := by
  unfold dispatchPhase
  dsimp only
  split
  · simp_all
  · rfl

/-- The dispatch phase reports the registration count it was handed. -/
theorem dispatchPhase_regAttempts (env : Env) (st : BotState) (msg : Message)
    (content : List String) (rc sc : String) (reg : Nat) :
    (dispatchPhase env st msg content rc sc reg).regAttempts = reg := by
  unfold dispatchPhase
  dsimp only
  split <;> rfl

/-- The dispatch phase never changes the shared state. -/
theorem dispatchPhase_state (env : Env) (st : BotState) (msg : Message)
    (content : List String) (rc sc : String) (reg : Nat) :
    (dispatchPhase env st msg content rc sc reg).prefixes = st.prefixes ∧
    (dispatchPhase env st msg content rc sc reg).db = st.db := by
  unfold dispatchPhase
  dsimp only
  constructor <;> (split <;> rfl)

/-- Under a prefix match the dispatch phase records the `command` string
built by replacing every occurrence of the resolved prefix in the first
token. -/
theorem dispatchPhase_cmdName_of_match (env : Env) (st : BotState) (msg : Message)
    (content : List String) (rc sc : String) (reg : Nat)
    (h : strStartsWith (strLower msg.content)
      (resolvePfx env.indev st.prefixes msg.guildId) = true) :
    (dispatchPhase env st msg content rc sc reg).cmdName =
      some (strReplace (content.headD "")
        (resolvePfx env.indev st.prefixes msg.guildId) "") := by
  unfold dispatchPhase
  dsimp only
  split
  · rfl
  · simp_all

/-- Shorthand for the lower-cased whitespace tokens of the message content
(the `content` vector of messages.rs lines 17 to 21). -/
def lowTokens (msg : Message) : List String :=
  (splitWhitespace msg.content).map strLower

/-- Branch equation for `handle_message` on a direct message: no
registration, straight to the dispatch phase. -/
theorem handle_message_dm (env : Env) (st : BotState) (msg : Message)
    (hbot : msg.authorBot = false) (hg : msg.guildId = none)
    (htok : lowTokens msg ≠ []) :
    handle_message env st msg =
      dispatchPhase env st msg (lowTokens msg)
        (stripDollar ((lowTokens msg).headD "")) ((lowTokens msg).getD 1 "") 0 := by
  unfold handle_message lowTokens at *
  rw [hbot, hg]
  simp [htok]

/-- Branch equation for `handle_message` on a guild message whose guild is
already cached: no registration, straight to the dispatch phase. -/
theorem handle_message_cached (env : Env) (st : BotState) (msg : Message) (g : String)
    (hbot : msg.authorBot = false) (hg : msg.guildId = some g)
    (hc : mapContains st.prefixes g = true)
    (htok : lowTokens msg ≠ []) :
    handle_message env st msg =
      dispatchPhase env st msg (lowTokens msg)
        (stripDollar ((lowTokens msg).headD "")) ((lowTokens msg).getD 1 "") 0 := by
  unfold handle_message lowTokens at *
  rw [hbot, hg]
  simp [htok, hc]

/-- Branch equation for `handle_message` on first contact when the
database insert fails: the `if let Ok` discards the error, the state is
unchanged and the dispatch phase still runs (after one registration
attempt). -/
theorem handle_message_reg_dbfail (env : Env) (st : BotState) (msg : Message) (g : String)
    (hbot : msg.authorBot = false) (hg : msg.guildId = some g)
    (hc : mapContains st.prefixes g = false) (hdb : env.dbOk = false)
    (htok : lowTokens msg ≠ []) :
    handle_message env st msg =
      dispatchPhase env st msg (lowTokens msg)
        (stripDollar ((lowTokens msg).headD "")) ((lowTokens msg).getD 1 "") 1 := by
  unfold handle_message lowTokens at *
  rw [hbot, hg, hdb]
  simp [htok, hc, register_prefix]

/-- Branch equation for `handle_message` on first contact when both the
database insert and the notification send succeed: the default binding is
registered and the dispatch phase runs on the updated state. -/
theorem handle_message_reg_ok (env : Env) (st : BotState) (msg : Message) (g : String)
    (hbot : msg.authorBot = false) (hg : msg.guildId = some g)
    (hc : mapContains st.prefixes g = false) (hdb : env.dbOk = true)
    (hn : env.notifyOk = true)
    (htok : lowTokens msg ≠ []) :
    handle_message env st msg =
      dispatchPhase env
        { prefixes := mapInsert st.prefixes g "h!"
          db := st.db ++ [{ serverId := g, pfxValue := "h!" }] }
        msg (lowTokens msg)
        (stripDollar ((lowTokens msg).headD "")) ((lowTokens msg).getD 1 "") 1 := by
  unfold handle_message lowTokens at *
  rw [hbot, hg, hdb, hn]
  simp [htok, hc, register_prefix]

/-- Branch equation for `handle_message` on first contact when the
database insert succeeds but the notification send fails: the run is cut
short with `Err("Failed to send message")` before any dispatch, the
registered state being kept. -/
theorem handle_message_reg_notify_fail (env : Env) (st : BotState) (msg : Message)
    (g : String)
    (hbot : msg.authorBot = false) (hg : msg.guildId = some g)
    (hc : mapContains st.prefixes g = false) (hdb : env.dbOk = true)
    (hn : env.notifyOk = false)
    (htok : lowTokens msg ≠ []) :
    handle_message env st msg =
      { res := Except.error "Failed to send message"
        prefixes := mapInsert st.prefixes g "h!"
        db := st.db ++ [{ serverId := g, pfxValue := "h!" }]
        regAttempts := 1, dispatched := false, invoked := none
        cmdName := none
        reactCmd := some (stripDollar ((lowTokens msg).headD ""))
        subCmd := some ((lowTokens msg).getD 1 "")
        resolved := none } := by
  unfold handle_message lowTokens at *
  rw [hbot, hg, hdb, hn]
  simp [htok, hc, register_prefix]

/-- Branch equation for the two early returns of `handle_message` (bot
author, token-less content): the no-op result. -/
theorem handle_message_noop (env : Env) (st : BotState) (msg : Message)
    (h : msg.authorBot = true ∨ lowTokens msg = []) :
    handle_message env st msg = noOpResult st := by
  unfold handle_message lowTokens at *
  rcases h with h | h
  · rw [h]
    simp
  · cases hb : msg.authorBot
    · simp [h]
    · simp

/-- Outside development mode, an uncached guild resolves to the default
prefix. -/
theorem resolvePfx_absent (m : PrefixMap) (g : String)
    (h : mapContains m g = false) : resolvePfx false m (some g) = "h!" := by
  show strLower ((mapFind m g).getD "h!") = "h!"
  rw [mapFind_eq_none_of_contains_false m g h]
  rfl

/-- Outside development mode, a cached guild resolves to its stored value,
lower-cased. -/
theorem resolvePfx_found (m : PrefixMap) (g P : String)
    (h : mapFind m g = some P) : resolvePfx false m (some g) = strLower P := by
  show strLower ((mapFind m g).getD "h!") = strLower P
  rw [h]
  rfl

/-- In development mode everything resolves to `h?`. -/
theorem resolvePfx_indev (m : PrefixMap) (gid : Option String) :
    resolvePfx true m gid = "h?" := rfl

/-- C1 counterexample: with development mode active, a direct message
resolves to `h?`, not `h!` — the development-mode branch of the resolver
precedes the direct-message branch, so "regardless of whether development
mode is active" fails on the code. -/
theorem c1_counterexample :
    resolvePfx true [] none = "h?" ∧ resolvePfx true [] none ≠ "h!" := by decide

/-- C1, amended: a direct message resolves to the fixed default `h!`
regardless of the prefix cache whenever development mode is inactive;
with development mode active it resolves to `h?`, again regardless of the
cache. -/
theorem c1_dm_resolution (indev : Bool) (m : PrefixMap) :
    resolvePfx indev m none = if indev then "h?" else "h!" := by
  cases indev <;> rfl

/-- C2 counterexample: with resolved prefix `h!`, the message `h!ph!ing`
is dispatched with `commandName = "ping"` — `replace` removes every
occurrence of the prefix, not only the leading one, so the claimed
front-stripping (which gives `ph!ing`) does not describe the code, and the
unrelated implementation `ping` is invoked. -/
theorem c2_counterexample :
    (handle_message ⟨false, true, true, Except.ok ()⟩ ⟨[], []⟩
        ⟨false, "h!ph!ing", none, 0⟩).cmdName = some "ping" ∧
    specStripLeading "h!ph!ing" "h!" = "ph!ing" ∧
    (handle_message ⟨false, true, true, Except.ok ()⟩ ⟨[], []⟩
        ⟨false, "h!ph!ing", none, 0⟩).cmdName ≠
      some (specStripLeading "h!ph!ing" "h!") ∧
    (handle_message ⟨false, true, true, Except.ok ()⟩ ⟨[], []⟩
        ⟨false, "h!ph!ing", none, 0⟩).invoked = some "ping" := by decide

/-- C2, amended: for every message that is dispatched as a command
invocation, the `commandName` passed to dispatch is the first whitespace
token with every occurrence of the resolved prefix removed (which
coincides with stripping the prefix from the front whenever the prefix
occurs in the first token only as its leading characters); in particular
dispatching `h!ping` with resolved prefix `h!` invokes the `ping`
implementation with `commandName = "ping"`. -/
theorem c2_command_name (env : Env) (st : BotState) (msg : Message) :
    ((handle_message env st msg).dispatched = true →
      (handle_message env st msg).cmdName =
        some (strReplace ((lowTokens msg).headD "")
          (resolvePfx env.indev st.prefixes msg.guildId) "")) ∧
    ((handle_message ⟨false, true, true, Except.ok ()⟩ ⟨[], []⟩
        ⟨false, "h!ping", none, 0⟩).invoked = some "ping" ∧
     (handle_message ⟨false, true, true, Except.ok ()⟩ ⟨[], []⟩
        ⟨false, "h!ping", none, 0⟩).cmdName = some "ping" ∧
     (handle_message ⟨false, true, true, Except.ok ()⟩ ⟨[], []⟩
        ⟨false, "h!ping", none, 0⟩).resolved = some "h!") := by
  refine ⟨?_, by decide, by decide, by decide⟩
  intro hdisp
  cases hb : msg.authorBot with
  | true =>
      rw [handle_message_noop env st msg (Or.inl hb)] at hdisp
      simp [noOpResult] at hdisp
  | false =>
      by_cases htok : lowTokens msg = []
      · rw [handle_message_noop env st msg (Or.inr htok)] at hdisp
        simp [noOpResult] at hdisp
      · cases hg : msg.guildId with
        | none =>
            rw [handle_message_dm env st msg hb hg htok] at hdisp ⊢
            rw [dispatchPhase_dispatched] at hdisp
            rw [dispatchPhase_cmdName_of_match env st msg (lowTokens msg) _ _ 0 hdisp,
              hg]
        | some g =>
            cases hc : mapContains st.prefixes g with
            | true =>
                rw [handle_message_cached env st msg g hb hg hc htok] at hdisp ⊢
                rw [dispatchPhase_dispatched] at hdisp
                rw [dispatchPhase_cmdName_of_match env st msg (lowTokens msg) _ _ 0
                  hdisp, hg]
            | false =>
                cases hdb : env.dbOk with
                | false =>
                    rw [handle_message_reg_dbfail env st msg g hb hg hc hdb htok]
                      at hdisp ⊢
                    rw [dispatchPhase_dispatched] at hdisp
                    rw [dispatchPhase_cmdName_of_match env st msg (lowTokens msg) _ _ 1
                      hdisp, hg]
                | true =>
                    cases hn : env.notifyOk with
                    | false =>
                        rw [handle_message_reg_notify_fail env st msg g hb hg hc
                          hdb hn htok] at hdisp
                        simp at hdisp
                    | true =>
                        rw [handle_message_reg_ok env st msg g hb hg hc hdb hn htok]
                          at hdisp ⊢
                        rw [dispatchPhase_dispatched] at hdisp
                        have hcmd := dispatchPhase_cmdName_of_match env
                          { prefixes := mapInsert st.prefixes g "h!"
                            db := st.db ++ [{ serverId := g, pfxValue := "h!" }] }
                          msg (lowTokens msg)
                          (stripDollar ((lowTokens msg).headD ""))
                          ((lowTokens msg).getD 1 "") 1 hdisp
                        rw [hcmd]
                        dsimp only
                        rw [hg, resolvePfx_after_register env.indev st.prefixes g hc]

/-- C2 witness: applying the amended statement to the concrete dispatch
of `h!ping` on the empty cache: the recorded `commandName` is the first
token with every occurrence of the resolved prefix removed, and `ping`
is invoked. -/
theorem c2_witness :
    (handle_message ⟨false, true, true, Except.ok ()⟩ ⟨[], []⟩
        ⟨false, "h!ping", none, 0⟩).cmdName =
      some (strReplace ((lowTokens ⟨false, "h!ping", none, 0⟩).headD "")
        (resolvePfx false [] none) "") ∧
    (handle_message ⟨false, true, true, Except.ok ()⟩ ⟨[], []⟩
        ⟨false, "h!ping", none, 0⟩).invoked = some "ping" :=
  ⟨(c2_command_name ⟨false, true, true, Except.ok ()⟩ ⟨[], []⟩
      ⟨false, "h!ping", none, 0⟩).1 (by decide),
   (c2_command_name ⟨false, true, true, Except.ok ()⟩ ⟨[], []⟩
      ⟨false, "h!ping", none, 0⟩).2.1⟩

/-- C6: sampling from a non-empty snapshot always returns some member of
the snapshot; sampling from the empty snapshot returns `none`, and the
rotator loop on an empty snapshot emits only the fatal error event and
terminates, performing no further iteration however much fuel remains. -/
theorem c6_sampling_and_rotator (l : List StatusDoc) (k fuel : Nat) (rng : Nat → Nat)
    (hne : l ≠ []) :
    (∃ x, random_element_vec l k = some x ∧ x ∈ l) ∧
    random_element_vec ([] : List StatusDoc) k = none ∧
    start_status_loop [] rng (fuel + 1) = [LoopEvent.fatalNoStatuses] := by
  refine ⟨?_, ?_, ?_⟩
  · have hlen : 0 < l.length := List.length_pos.mpr hne
    have hidx : k % l.length < l.length := Nat.mod_lt _ hlen
    refine ⟨l.get ⟨k % l.length, hidx⟩, ?_, List.get_mem l _ _⟩
    simp [random_element_vec, List.get?_eq_get hidx]
  · simp [random_element_vec]
  · simp [start_status_loop, random_element_vec]

/-- C6 witness: a singleton snapshot yields its member, and the empty
snapshot yields `none` and a terminating loop. -/
theorem c6_witness :
    (∃ x, random_element_vec [({ rtype := "PLAYING", status := "x" } : StatusDoc)] 0 =
        some x ∧ x ∈ [({ rtype := "PLAYING", status := "x" } : StatusDoc)]) ∧
    random_element_vec ([] : List StatusDoc) 0 = none ∧
    start_status_loop [] (fun _ => 0) (0 + 1) = [LoopEvent.fatalNoStatuses] :=
  c6_sampling_and_rotator [{ rtype := "PLAYING", status := "x" }] 0 0 (fun _ => 0)
    (by decide)

/-- C7: a message authored by a bot, or one whose content has no
whitespace tokens, is handled as a successful no-op: `Ok(())`, nothing
dispatched, nothing invoked, no registration attempt, and both the
in-memory map and the collection untouched. -/
theorem c7_noop_messages (env : Env) (st : BotState) (msg : Message)
    (h : msg.authorBot = true ∨ lowTokens msg = []) :
    (handle_message env st msg).res = Except.ok () ∧
    (handle_message env st msg).invoked = none ∧
    (handle_message env st msg).dispatched = false ∧
    (handle_message env st msg).regAttempts = 0 ∧
    (handle_message env st msg).prefixes = st.prefixes ∧
    (handle_message env st msg).db = st.db := by
  rw [handle_message_noop env st msg h]
  exact ⟨rfl, rfl, rfl, rfl, rfl, rfl⟩

/-- C7 witness: a bot-authored command-looking message is a successful
no-op on a concrete state. -/
theorem c7_witness :
    (handle_message ⟨false, true, true, Except.ok ()⟩ ⟨[("1", "h!")], []⟩
        ⟨true, "h!ping", some "1", 0⟩).res = Except.ok () ∧
    (handle_message ⟨false, true, true, Except.ok ()⟩ ⟨[("1", "h!")], []⟩
        ⟨true, "h!ping", some "1", 0⟩).invoked = none ∧
    (handle_message ⟨false, true, true, Except.ok ()⟩ ⟨[("1", "h!")], []⟩
        ⟨true, "h!ping", some "1", 0⟩).dispatched = false ∧
    (handle_message ⟨false, true, true, Except.ok ()⟩ ⟨[("1", "h!")], []⟩
        ⟨true, "h!ping", some "1", 0⟩).regAttempts = 0 ∧
    (handle_message ⟨false, true, true, Except.ok ()⟩ ⟨[("1", "h!")], []⟩
        ⟨true, "h!ping", some "1", 0⟩).prefixes =
      (⟨[("1", "h!")], []⟩ : BotState).prefixes ∧
    (handle_message ⟨false, true, true, Except.ok ()⟩ ⟨[("1", "h!")], []⟩
        ⟨true, "h!ping", some "1", 0⟩).db = (⟨[("1", "h!")], []⟩ : BotState).db :=
  c7_noop_messages ⟨false, true, true, Except.ok ()⟩ ⟨[("1", "h!")], []⟩
    ⟨true, "h!ping", some "1", 0⟩ (Or.inl rfl)

/-- C9: whatever interleaving two concurrent first-contact registrations
for the same guild produce, once both have finished the in-memory map
binds that guild to exactly `h!`, and that binding is the only one for
the guild. -/
theorem c9_concurrent_registration (init : PrefixMap) (g : String) (sched : List RegOp)
    (h : Interleaving regSeq regSeq sched) :
    mapFind (runRegOps g init sched) g = some "h!" ∧
    (runRegOps g init sched).filter (fun p => p.1 == g) = [(g, "h!")] := by
  have hmem : RegOp.mapWrite ∈ sched := by
    rw [Interleaving.mem_iff h]
    exact Or.inl (by simp [regSeq])
  rw [runRegOps_with_write g init sched hmem]
  exact ⟨mapFind_mapInsert_self init g "h!", filter_eq_mapInsert init g "h!"⟩

/-- C9 witness: the fully sequential schedule of the two registrations for
guild `123`, starting from the empty map. -/
theorem c9_witness :
    mapFind (runRegOps "123" []
        [RegOp.dbInsert, RegOp.mapWrite, RegOp.dbInsert, RegOp.mapWrite]) "123" =
      some "h!" ∧
    (runRegOps "123" []
        [RegOp.dbInsert, RegOp.mapWrite, RegOp.dbInsert, RegOp.mapWrite]).filter
        (fun p => p.1 == "123") = [("123", "h!")] :=
  c9_concurrent_registration [] "123" _
    (Interleaving.left (Interleaving.left
      (Interleaving.right (Interleaving.right Interleaving.nil))))

/-- C10: ` register_prefix` is atomic on failure — when the collection
insert fails it returns the error and leaves both the collection and the
in-memory map exactly as they were — and on success the value it binds in
the map is exactly `h!`. -/
theorem c10_register_atomic (g : String) (db : List PrefixDoc) (m : PrefixMap) :
    (( register_prefix g false db m).res = Except.error "insert_one failed" ∧
     ( register_prefix g false db m).prefixes = m ∧
     ( register_prefix g false db m).db = db) ∧
    (( register_prefix g true db m).res = Except.ok g ∧
     ( register_prefix g true db m).prefixes = mapInsert m g "h!" ∧
     mapFind ( register_prefix g true db m).prefixes g = some "h!") := by
  refine ⟨⟨rfl, rfl, rfl⟩, rfl, rfl, ?_⟩
  exact mapFind_mapInsert_self m g "h!"

/-- C3: when first-contact registration fails at the persistent store, the
failure is the error value ` register_prefix` itself returns to its caller
(nothing is swallowed inside it, and the map is left untouched), while the
message handler still resolves the default `h!` for the message and
returns `Ok(())` — resolution does not throw. -/
theorem c3_first_contact_failure (env : Env) (st : BotState) (msg : Message) (g : String)
    (hdev : env.indev = false) (hdb : env.dbOk = false)
    (hexec : env.execRes = Except.ok ())
    (hbot : msg.authorBot = false) (hg : msg.guildId = some g)
    (habs : mapContains st.prefixes g = false)
    (htok : lowTokens msg ≠ []) :
    ( register_prefix g env.dbOk st.db st.prefixes).res =
      Except.error "insert_one failed" ∧
    ( register_prefix g env.dbOk st.db st.prefixes).prefixes = st.prefixes ∧
    ( register_prefix g env.dbOk st.db st.prefixes).db = st.db ∧
    (handle_message env st msg).res = Except.ok () ∧
    (handle_message env st msg).resolved = some "h!" ∧
    (handle_message env st msg).prefixes = st.prefixes := by
  rw [hdb]
  refine ⟨rfl, rfl, rfl, ?_, ?_, ?_⟩
  all_goals rw [handle_message_reg_dbfail env st msg g hbot hg habs hdb htok]
  · exact dispatchPhase_res_ok _ _ _ _ _ _ _ hexec
  · rw [dispatchPhase_resolved, hdev, hg, resolvePfx_absent st.prefixes g habs]
  · exact (dispatchPhase_state _ _ _ _ _ _ _).1

/-- C3 witness: a concrete first-contact message whose database insert
fails still resolves `h!` and is handled successfully. -/
theorem c3_witness :
    ( register_prefix "1" (⟨false, false, true, Except.ok ()⟩ : Env).dbOk [] []).res =
      Except.error "insert_one failed" ∧
    ( register_prefix "1" (⟨false, false, true, Except.ok ()⟩ : Env).dbOk [] []).prefixes =
      ([] : PrefixMap) ∧
    ( register_prefix "1" (⟨false, false, true, Except.ok ()⟩ : Env).dbOk [] []).db =
      ([] : List PrefixDoc) ∧
    (handle_message ⟨false, false, true, Except.ok ()⟩ ⟨[], []⟩
        ⟨false, "hello", some "1", 0⟩).res = Except.ok () ∧
    (handle_message ⟨false, false, true, Except.ok ()⟩ ⟨[], []⟩
        ⟨false, "hello", some "1", 0⟩).resolved = some "h!" ∧
    (handle_message ⟨false, false, true, Except.ok ()⟩ ⟨[], []⟩
        ⟨false, "hello", some "1", 0⟩).prefixes = (⟨[], []⟩ : BotState).prefixes :=
  c3_first_contact_failure ⟨false, false, true, Except.ok ()⟩ ⟨[], []⟩
    ⟨false, "hello", some "1", 0⟩ "1" rfl rfl rfl rfl rfl (by decide) (by decide)

/-- C5 counterexample: in development mode a guild with stored prefix `X!`
resolves to `h?`, not to the stored value lower-cased, so the claim's
unconditional "returns P case-folded" fails on the code (the registration
count is still zero). -/
theorem c5_counterexample :
    mapFind [("1", "X!")] "1" = some "X!" ∧
    (handle_message ⟨true, true, true, Except.ok ()⟩ ⟨[("1", "X!")], []⟩
        ⟨false, "hey", some "1", 0⟩).resolved = some "h?" ∧
    (handle_message ⟨true, true, true, Except.ok ()⟩ ⟨[("1", "X!")], []⟩
        ⟨false, "hey", some "1", 0⟩).resolved ≠ some (strLower "X!") ∧
    (handle_message ⟨true, true, true, Except.ok ()⟩ ⟨[("1", "X!")], []⟩
        ⟨false, "hey", some "1", 0⟩).regAttempts = 0 := by decide

/-- C5, amended: for a guild with a stored prefix the handler performs
zero registration attempts, and the resolved prefix is the stored value
lower-cased whenever development mode is inactive (with development mode
active it is `h?` instead). -/
theorem c5_stored_value (env : Env) (st : BotState) (msg : Message) (g P : String)
    (hg : msg.guildId = some g) (hfind : mapFind st.prefixes g = some P)
    (hbot : msg.authorBot = false) (htok : lowTokens msg ≠ []) :
    (handle_message env st msg).regAttempts = 0 ∧
    (env.indev = false →
      (handle_message env st msg).resolved = some (strLower P)) ∧
    (env.indev = true → (handle_message env st msg).resolved = some "h?") := by
  have hc : mapContains st.prefixes g = true :=
    mapContains_eq_true_of_find st.prefixes g P hfind
  rw [handle_message_cached env st msg g hbot hg hc htok]
  refine ⟨dispatchPhase_regAttempts _ _ _ _ _ _ _, ?_, ?_⟩
  · intro hdev
    rw [dispatchPhase_resolved, hdev, hg, resolvePfx_found st.prefixes g P hfind]
  · intro hdev
    rw [dispatchPhase_resolved, hdev, resolvePfx_indev]

/-- C5 witness: a cached guild with stored value `X!` resolves to `x!`
outside development mode, with zero registration attempts. -/
theorem c5_witness :
    (handle_message ⟨false, true, true, Except.ok ()⟩ ⟨[("1", "X!")], []⟩
        ⟨false, "hey", some "1", 0⟩).regAttempts = 0 ∧
    (handle_message ⟨false, true, true, Except.ok ()⟩ ⟨[("1", "X!")], []⟩
        ⟨false, "hey", some "1", 0⟩).resolved = some (strLower "X!") :=
  ⟨(c5_stored_value ⟨false, true, true, Except.ok ()⟩ ⟨[("1", "X!")], []⟩
      ⟨false, "hey", some "1", 0⟩ "1" "X!" rfl (by decide) rfl (by decide)).1,
   (c5_stored_value ⟨false, true, true, Except.ok ()⟩ ⟨[("1", "X!")], []⟩
      ⟨false, "hey", some "1", 0⟩ "1" "X!" rfl (by decide) rfl (by decide)).2.1 rfl⟩

/-- C4 counterexample: a non-bot first-contact message whose lower-cased
text does start with the resolved prefix is nevertheless not dispatched
when the registration notification send fails, because the handler aborts
with `Err` before the prefix check — so "dispatched iff the text starts
with the resolved prefix" fails on the code as stated. -/
theorem c4_counterexample :
    strStartsWith (strLower "h!ping") (resolvePfx false [] (some "1")) = true ∧
    (⟨false, "h!ping", some "1", 9⟩ : Message).authorBot = false ∧
    lowTokens ⟨false, "h!ping", some "1", 9⟩ ≠ [] ∧
    (handle_message ⟨false, true, false, Except.ok ()⟩ ⟨[], []⟩
        ⟨false, "h!ping", some "1", 9⟩).dispatched = false ∧
    (handle_message ⟨false, true, false, Except.ok ()⟩ ⟨[], []⟩
        ⟨false, "h!ping", some "1", 9⟩).invoked = none := by decide

/-- C4, amended: for a message that passes the bot and empty-content
filters and whose handling is not cut short by a failed first-contact
notification send, the message is dispatched iff its lower-cased full
text starts with the resolved prefix; and unconditionally, a message
whose lower-cased text does not start with the resolved prefix never
reaches any command implementation. -/
theorem c4_dispatch_iff (env : Env) (st : BotState) (msg : Message) :
    ((msg.authorBot = false) → (lowTokens msg ≠ []) → (env.notifyOk = true) →
      ((handle_message env st msg).dispatched = true ↔
        strStartsWith (strLower msg.content)
          (resolvePfx env.indev st.prefixes msg.guildId) = true)) ∧
    (strStartsWith (strLower msg.content)
        (resolvePfx env.indev st.prefixes msg.guildId) = false →
      (handle_message env st msg).invoked = none ∧
      (handle_message env st msg).dispatched = false) := by
  constructor
  · intro hbot htok hn
    cases hg : msg.guildId with
    | none =>
        rw [handle_message_dm env st msg hbot hg htok, dispatchPhase_dispatched, hg]
    | some g =>
        cases hc : mapContains st.prefixes g with
        | true =>
            rw [handle_message_cached env st msg g hbot hg hc htok,
              dispatchPhase_dispatched, hg]
        | false =>
            cases hdb : env.dbOk with
            | false =>
                rw [handle_message_reg_dbfail env st msg g hbot hg hc hdb htok,
                  dispatchPhase_dispatched, hg]
            | true =>
                rw [handle_message_reg_ok env st msg g hbot hg hc hdb hn htok,
                  dispatchPhase_dispatched]
                dsimp only
                rw [hg, resolvePfx_after_register env.indev st.prefixes g hc]
  · intro hns
    cases hb : msg.authorBot with
    | true =>
        rw [handle_message_noop env st msg (Or.inl hb)]
        exact ⟨rfl, rfl⟩
    | false =>
        by_cases htok : lowTokens msg = []
        · rw [handle_message_noop env st msg (Or.inr htok)]
          exact ⟨rfl, rfl⟩
        · cases hg : msg.guildId with
          | none =>
              rw [handle_message_dm env st msg hb hg htok]
              refine ⟨dispatchPhase_invoked_of_no_match _ _ _ _ _ _ _ hns, ?_⟩
              rw [dispatchPhase_dispatched]
              exact hns
          | some g =>
              cases hc : mapContains st.prefixes g with
              | true =>
                  rw [handle_message_cached env st msg g hb hg hc htok]
                  refine ⟨dispatchPhase_invoked_of_no_match _ _ _ _ _ _ _ hns, ?_⟩
                  rw [dispatchPhase_dispatched]
                  exact hns
              | false =>
                  cases hdb : env.dbOk with
                  | false =>
                      rw [handle_message_reg_dbfail env st msg g hb hg hc hdb htok]
                      refine ⟨dispatchPhase_invoked_of_no_match _ _ _ _ _ _ _ hns, ?_⟩
                      rw [dispatchPhase_dispatched]
                      exact hns
                  | true =>
                      cases hn : env.notifyOk with
                      | false =>
                          rw [handle_message_reg_notify_fail env st msg g hb hg hc
                            hdb hn htok]
                          exact ⟨rfl, rfl⟩
                      | true =>
                          rw [handle_message_reg_ok env st msg g hb hg hc hdb hn htok]
                          have hns2 : strStartsWith (strLower msg.content)
                              (resolvePfx env.indev (mapInsert st.prefixes g "h!")
                                msg.guildId) = false := by
                            rw [hg] at hns
                            rw [hg, resolvePfx_after_register env.indev st.prefixes g hc]
                            exact hns
                          refine ⟨dispatchPhase_invoked_of_no_match _ _ _ _ _ _ _ hns2, ?_⟩
                          rw [dispatchPhase_dispatched]
                          dsimp only
                          exact hns2

/-- C4 witness: `h!ping` from a direct message is dispatched, and a
message not starting with the resolved prefix invokes nothing. -/
theorem c4_witness :
    (handle_message ⟨false, true, true, Except.ok ()⟩ ⟨[], []⟩
        ⟨false, "h!ping", none, 0⟩).dispatched = true ∧
    (handle_message ⟨false, true, true, Except.ok ()⟩ ⟨[], []⟩
        ⟨false, "hey there", none, 0⟩).invoked = none :=
  ⟨((c4_dispatch_iff ⟨false, true, true, Except.ok ()⟩ ⟨[], []⟩
      ⟨false, "h!ping", none, 0⟩).1 rfl (by decide) rfl).mpr (by decide),
   ((c4_dispatch_iff ⟨false, true, true, Except.ok ()⟩ ⟨[], []⟩
      ⟨false, "hey there", none, 0⟩).2 (by decide)).1⟩

/-- C8: when handling a message ends in an error, the escalation report is
posted exactly once, to the originating channel when that channel is in
the configured development-channel set and to the fixed operator log
channel otherwise; a failure of the posting itself only adds a console log
entry — `error_log` is never run again. -/
theorem c8_error_escalation (cfg : Config) (env : Env) (st : BotState) (msg : Message)
    (postOk replyOk : Bool) (e : String)
    (herr : (handle_message env st msg).res = Except.error e) :
    (onMessageEvent cfg env st msg postOk replyOk).filter isPostReport =
      [TopAction.postReport (errorDest cfg msg.channelId)] ∧
    (cfg.devChannels.contains msg.channelId = true →
      errorDest cfg msg.channelId = msg.channelId) ∧
    (cfg.devChannels.contains msg.channelId = false →
      errorDest cfg msg.channelId = cfg.logChannel) ∧
    (postOk = false →
      TopAction.logErrorLogFailure ∈ onMessageEvent cfg env st msg postOk replyOk) := by
  refine ⟨?_, ?_, ?_, ?_⟩
  · cases postOk <;> cases replyOk <;>
      simp [onMessageEvent, herr, error_log, isPostReport]
  · intro h
    unfold errorDest
    rw [h]
    simp
  · intro h
    unfold errorDest
    rw [h]
    simp
  · intro hp
    subst hp
    simp [onMessageEvent, herr, error_log]

/-- C8 witness: a first-contact message whose notification send fails
makes the handler err; with the originating channel (5) configured as a
development channel and the report send failing, the report goes to
channel 5 once and the posting failure is only logged. -/
theorem c8_witness :
    (onMessageEvent ⟨[5], 99⟩ ⟨false, true, false, Except.ok ()⟩ ⟨[], []⟩
        ⟨false, "hello", some "1", 5⟩ false true).filter isPostReport =
      [TopAction.postReport (errorDest ⟨[5], 99⟩
        (⟨false, "hello", some "1", 5⟩ : Message).channelId)] ∧
    ((⟨[5], 99⟩ : Config).devChannels.contains
        (⟨false, "hello", some "1", 5⟩ : Message).channelId = true →
      errorDest ⟨[5], 99⟩ (⟨false, "hello", some "1", 5⟩ : Message).channelId =
        (⟨false, "hello", some "1", 5⟩ : Message).channelId) ∧
    ((⟨[5], 99⟩ : Config).devChannels.contains
        (⟨false, "hello", some "1", 5⟩ : Message).channelId = false →
      errorDest ⟨[5], 99⟩ (⟨false, "hello", some "1", 5⟩ : Message).channelId =
        (⟨[5], 99⟩ : Config).logChannel) ∧
    (false = false →
      TopAction.logErrorLogFailure ∈ onMessageEvent ⟨[5], 99⟩
        ⟨false, true, false, Except.ok ()⟩ ⟨[], []⟩
        ⟨false, "hello", some "1", 5⟩ false true) :=
  c8_error_escalation ⟨[5], 99⟩ ⟨false, true, false, Except.ok ()⟩ ⟨[], []⟩
    ⟨false, "hello", some "1", 5⟩ false true "Failed to send message" (by decide)

end Hifumi
